import Mathlib

/-!
Verification of the blockchain revocation reconciliation subsystem of the
ticketing backend: the revocation queue worker
(api/worker/blockchain-revocation-worker.js), the state reconciler
(api/admin/sync-blockchain-state.js), the state verifier
(api/admin/verify-all-tokens.js) and the revocation initiators
(api/tickets/revoke.js and the batch bot-detection revocation handler).

The database rows are embedded as Lean structures, each handler as a pure
function from the incoming request, the current database contents and an
environment describing the outcomes of the external calls (ledger reads and
writes, database insert and update results) to the response and the new
database contents.  Timestamps are naturals (milliseconds).
-/

namespace TicketingDb

/-- A row of the tickets table, restricted to the columns the revocation
reconciliation subsystem reads and writes. -/
structure Ticket where
  ticket_id : Nat
  nft_token_id : Option String
  ticket_status : String
  blockchain_registered : Bool
  nft_mint_status : String
  last_blockchain_sync : Option Nat
  blockchain_sync_status : Option Nat
  deriving Repr, DecidableEq

/-- A row of the blockchain_revocation_queue table. -/
structure QueueItem where
  id : Nat
  ticket_id : Nat
  revocation_log_id : Option Nat
  status : String
  retry_count : Nat
  error_message : Option String
  processed_at : Option Nat
  created_at : Nat
  deriving Repr, DecidableEq

/-- A row of the revocation_log audit table. -/
structure LogRow where
  id : Nat
  ticket_id : Nat
  admin_id : String
  reason : String
  blockchain_status : Option String
  blockchain_tx_hash : Option String
  deriving Repr, DecidableEq

/-! ## Revocation worker (api/worker/blockchain-revocation-worker.js) -/

/-- The join columns the worker selects from the tickets table for each
queue item. -/
structure WorkerTicket where
  ticket_id : Nat
  nft_contract_address : Option String
  nft_token_id : Option String
  deriving Repr, DecidableEq

/-- Outcomes of the two ledger calls the worker can make while handling one
queue item: contract.isRevoked and contract.revoke (the latter returning the
mined transaction hash on success). -/
structure WorkerEnv where
  isRevokedResult : Except String Bool
  revokeResult : Except String String
  deriving Repr

/-- The effect of processing one queue item: the final queue row, the
blockchain_status value written to the linked revocation_log row (none when
the log row is not touched), the transaction hash written to it, and whether
the mutating contract.revoke call was issued. -/
structure ItemOutcome where
  item : QueueItem
  logStatus : Option String
  logTx : Option String
  revokeCalled : Bool
  deriving Repr, DecidableEq

/-- The catch block of the worker loop: any exception increments
retry_count; at 3 or more the item becomes failed and the audit row is
marked failed, otherwise the item is requeued as pending. -/
def workerCatch (item : QueueItem) (msg : String) (revokeCalled : Bool) :
    ItemOutcome :=
  let rc := item.retry_count + 1
  let st := if rc ≥ 3 then "failed" else "pending"
  ⟨{ item with status := st, retry_count := rc, error_message := some msg },
   if st = "failed" then some "failed" else none, none, revokeCalled⟩

/-- Processing of a single queue item by the worker (the body of the loop in
processRevocationQueue): short-circuit when the joined ticket has no
blockchain linkage, short-circuit when the ledger already reports the token
revoked, otherwise issue the revoke transaction; exceptions from either
ledger call take the catch path. -/
def processQueueItem (env : WorkerEnv) (ticket : Option WorkerTicket)
    (now : Nat) (item : QueueItem) : ItemOutcome :=
  match ticket with
  | none =>
    ⟨{ item with status := "completed", processed_at := some now,
                 error_message := some "Ticket has no blockchain data" },
     some "not_applicable", none, false⟩
  | some tk =>
    if tk.nft_contract_address.isNone || tk.nft_token_id.isNone then
      ⟨{ item with status := "completed", processed_at := some now,
                   error_message := some "Ticket has no blockchain data" },
       some "not_applicable", none, false⟩
    else
      match env.isRevokedResult with
      | .error e => workerCatch item e false
      | .ok true =>
        ⟨{ item with status := "completed", processed_at := some now,
                     error_message := some "Already revoked on blockchain" },
         some "confirmed", none, false⟩
      | .ok false =>
        match env.revokeResult with
        | .error e => workerCatch item e true
        | .ok tx =>
          ⟨{ item with status := "completed", processed_at := some now },
           some "confirmed", some tx, true⟩

/-- Insertion sort step on queue creation time, standing in for the
order-by-created_at of the worker fetch. -/
def insertByCreated (x : QueueItem) : List QueueItem → List QueueItem
  | [] => [x]
  | y :: ys =>
    if x.created_at ≤ y.created_at then x :: y :: ys
    else y :: insertByCreated x ys

/-- Sort queue items by creation time, ascending. -/
def sortByCreated : List QueueItem → List QueueItem
  | [] => []
  | x :: xs => insertByCreated x (sortByCreated xs)

/-- The worker fetch: items with status pending, ordered by created_at
ascending, limited to 10. -/
def fetchPendingItems (queue : List QueueItem) : List QueueItem :=
  (sortByCreated (queue.filter (fun i => i.status == "pending"))).take 10

/-! ## State reconciler (api/admin/sync-blockchain-state.js) -/

/-- One hour in milliseconds, the staleness window of the sync query. -/
def HOUR_MS : Nat := 60 * 60 * 1000

/-- A ticket is stale at time `now` when it has never been synced or its
last sync is more than one hour old. -/
def staleAt (now : Nat) (t : Ticket) : Bool :=
  match t.last_blockchain_sync with
  | none => true
  | some s => s + HOUR_MS < now

/-- The sync selection predicate: the ticket has a blockchain token id, and
unless force-resync is set it must be stale. -/
def syncSelectPred (now : Nat) (force : Bool) (t : Ticket) : Bool :=
  t.nft_token_id.isSome && (force || staleAt now t)

/-- The batch of tickets one sync run fetches (order in the table list
stands in for the order-by-purchase_date of the query). -/
def selectForSync (limit now : Nat) (force : Bool) (db : List Ticket) :
    List Ticket :=
  (db.filter (syncSelectPred now force)).take limit

/-- Per-ticket outcomes of the external calls made while syncing one
ticket: the getTicketStatus ledger read and the success of the tickets-table
update that follows it. -/
structure TicketEnv where
  ledger : Except String Nat
  dbOk : Bool

/-- Result classification of syncing one ticket, mirroring the status field
of the per-item sync details: updated (a discrepancy was found and fixed),
in_sync, or failed. -/
inductive SyncOutcome
  | updated
  | in_sync
  | failed
  deriving Repr, DecidableEq

/-- The fixed interpretation table of ledger status codes: 0 keeps the
current status and clears the registered flag, 1 expects valid/registered,
2 expects revoked/registered, anything else expects the current values. -/
def interpretStatus (t : Ticket) (bs : Nat) : String × Bool :=
  match bs with
  | 0 => (t.ticket_status, false)
  | 1 => ("valid", true)
  | 2 => ("revoked", true)
  | _ => (t.ticket_status, t.blockchain_registered)

/-- Syncing a single ticket: read the ledger status, compare the expected
local fields with the current ones, overwrite them (promoting mint status
and refreshing the sync bookkeeping) when they differ, otherwise refresh
only the sync timestamp and status code.  A ledger exception or a failing
database update leaves the row unchanged and counts as a failure. -/
def syncStep (e : TicketEnv) (now : Nat) (t : Ticket) :
    Ticket × SyncOutcome :=
  match e.ledger with
  | .error _ => (t, .failed)
  | .ok bs =>
    let exp := interpretStatus t bs
    if t.ticket_status ≠ exp.1 ∨ t.blockchain_registered ≠ exp.2 then
      if e.dbOk then
        ({ t with ticket_status := exp.1,
                  blockchain_registered := exp.2,
                  nft_mint_status :=
                    if bs > 0 then "minted" else t.nft_mint_status,
                  last_blockchain_sync := some now,
                  blockchain_sync_status := some bs }, .updated)
      else (t, .failed)
    else
      (if e.dbOk then
        { t with last_blockchain_sync := some now,
                 blockchain_sync_status := some bs }
       else t, .in_sync)

/-- Keyed update of the tickets table: overwrite the row with the given
ticket_id. -/
def updateTicketRow (db : List Ticket) (i : Nat) (v : Ticket) :
    List Ticket :=
  db.map (fun t => if t.ticket_id = i then v else t)

/-- The sync loop body: process the selected tickets sequentially, each one
updating its own row and contributing to the discrepancy counter exactly
when its outcome is updated. -/
def syncLoop (env : Nat → TicketEnv) (now : Nat) :
    List Ticket → List Ticket × Nat → List Ticket × Nat
  | [], acc => acc
  | t :: rest, acc =>
    let r := syncStep (env t.ticket_id) now t
    syncLoop env now rest
      (updateTicketRow acc.1 t.ticket_id r.1,
       acc.2 + (if r.2 = .updated then 1 else 0))

/-- One run of performBlockchainSync: select the batch and fold the sync
loop over it, returning the new tickets table and the discrepanciesFound
counter. -/
def runSync (env : Nat → TicketEnv) (limit now : Nat) (force : Bool)
    (db : List Ticket) : List Ticket × Nat :=
  syncLoop env now (selectForSync limit now force db) (db, 0)

/-- The number of selected tickets whose sync outcome is updated. -/
def countUpdated (env : Nat → TicketEnv) (now : Nat)
    (sel : List Ticket) : Nat :=
  sel.countP (fun t => decide ((syncStep (env t.ticket_id) now t).2 = .updated))

/-- The tickets-table effect of processing a selection in order. -/
def applyUpdates (env : Nat → TicketEnv) (now : Nat)
    (sel : List Ticket) (db : List Ticket) : List Ticket :=
  sel.foldl
    (fun d t => updateTicketRow d t.ticket_id (syncStep (env t.ticket_id) now t).1)
    db

/-! ## State verifier (api/admin/verify-all-tokens.js) -/

/-- Character-list prefix test, auxiliary to the substring test. -/
def charsPrefix : List Char → List Char → Bool
  | [], _ => true
  | _ :: _, [] => false
  | a :: as, b :: bs => a == b && charsPrefix as bs

/-- Does `pat` occur as a contiguous substring of the character list? -/
def charsContains (pat : List Char) : List Char → Bool
  | [] => charsPrefix pat []
  | c :: rest => charsPrefix pat (c :: rest) || charsContains pat rest

/-- Does the string `s` contain `pat` as a contiguous substring? -/
def strContains (s pat : String) : Bool :=
  charsContains pat.data s.data

/-- The JavaScript Array.prototype.join with a separator. -/
def joinSep (sep : String) : List String → String
  | [] => ""
  | [s] => s
  | s :: rest => s ++ sep ++ joinSep sep rest

/-- The list of inconsistency messages pushed by
analyzeTokenVerification, in source order. -/
def verifyReasons (t : Ticket) (bs : Nat) (isRevoked : Bool) :
    List String :=
  (if bs == 0 && t.blockchain_registered then
    ["Token marked as registered in DB but unregistered on blockchain"]
   else []) ++
  (if bs == 1 && !(t.ticket_status == "valid") then
    ["Token registered on blockchain but not marked as valid in DB"]
   else []) ++
  (if bs == 2 && !(t.ticket_status == "revoked") then
    ["Token revoked on blockchain but not marked as revoked in DB"]
   else []) ++
  (if isRevoked && t.ticket_status == "valid" then
    ["Token is revoked on blockchain but marked as valid in DB"]
   else []) ++
  (if !t.blockchain_registered && bs > 0 then
    ["Token exists on blockchain but not marked as registered in DB"]
   else [])

/-- The verification verdict for one ticket. -/
structure VerifyVerdict where
  ticket_id : Nat
  has_inconsistency : Bool
  inconsistency_reason : Option String
  recommended_action : Option String
  deriving Repr, DecidableEq

/-- analyzeTokenVerification: evaluate the five consistency rules against
the database row and the two ledger reads, joining the violated rules into
one reason string and attaching the standard recommendation. -/
def analyzeTokenVerification (t : Ticket) (bs : Nat) (isRevoked : Bool) :
    VerifyVerdict :=
  let reasons := verifyReasons t bs isRevoked
  if reasons.isEmpty then
    ⟨t.ticket_id, false, none, none⟩
  else
    ⟨t.ticket_id, true, some (joinSep "; " reasons),
     some "Run blockchain sync to fix inconsistencies"⟩

/-- The five documented mismatch patterns, written from the §4.4 wording of
the specification: ledger unregistered but DB marks registered; ledger
registered but DB not valid; ledger revoked but DB not revoked; ledger
isRevoked true but DB valid; DB unregistered but ledger code positive. -/
def specMismatch (t : Ticket) (bs : Nat) (isRevoked : Bool) : Bool :=
  (bs == 0 && t.blockchain_registered) ||
  (bs == 1 && !(t.ticket_status == "valid")) ||
  (bs == 2 && !(t.ticket_status == "revoked")) ||
  (isRevoked && t.ticket_status == "valid") ||
  (!t.blockchain_registered && bs > 0)

/-- The batch of tickets one verification run fetches: tickets with a token
id, optionally narrowed by the verification type, limited. -/
def verifierSelect (vtype : String) (limit : Nat) (db : List Ticket) :
    List Ticket :=
  let base := db.filter (fun t => t.nft_token_id.isSome)
  let filtered :=
    if vtype == "registered_only" then
      base.filter (fun t => t.blockchain_registered)
    else if vtype == "flagged_only" then
      base.filter
        (fun t => !t.blockchain_registered || t.nft_mint_status == "failed")
    else base
  filtered.take limit

/-- The aggregate counters of a verification run. -/
structure VerifySummary where
  totalChecked : Nat
  validTokens : Nat
  invalidTokens : Nat
  revokedTokens : Nat
  unregisteredTokens : Nat
  inconsistencies : Nat
  deriving Repr, DecidableEq

/-- performTokenVerification: classify every selected ticket by its ledger
status code, count inconsistencies from the per-ticket analysis, and count
a per-ticket ledger failure as a verification error instead.  The function
reads the tickets table and the ledger and produces only a report. -/
def performTokenVerification (env : Nat → Except String (Nat × Bool))
    (vtype : String) (limit : Nat) (db : List Ticket) : VerifySummary :=
  let sel := verifierSelect vtype limit db
  sel.foldl
    (fun acc t =>
      match env t.ticket_id with
      | .error _ => { acc with invalidTokens := acc.invalidTokens + 1 }
      | .ok (bs, rev) =>
        let verdict := analyzeTokenVerification t bs rev
        let acc :=
          if bs == 0 then
            { acc with unregisteredTokens := acc.unregisteredTokens + 1 }
          else if bs == 1 then
            { acc with validTokens := acc.validTokens + 1 }
          else if bs == 2 then
            { acc with revokedTokens := acc.revokedTokens + 1 }
          else
            { acc with invalidTokens := acc.invalidTokens + 1 }
        if verdict.has_inconsistency then
          { acc with inconsistencies := acc.inconsistencies + 1 }
        else acc)
    ⟨sel.length, 0, 0, 0, 0, 0⟩

/-- A verification run as a transformer of the stored tables: it returns
the report next to the tables it was given.  The source of
performTokenVerification issues no insert or update against any table, so
its embedding has no database output other than the input itself. -/
def verifierRun (env : Nat → Except String (Nat × Bool)) (vtype : String)
    (limit : Nat) (tickets : List Ticket) (logs : List LogRow)
    (queue : List QueueItem) :
    (List Ticket × List LogRow × List QueueItem) × VerifySummary :=
  ((tickets, logs, queue), performTokenVerification env vtype limit tickets)

/-! ## Revocation initiator, single-ticket path (api/tickets/revoke.js) -/

/-- A row of the tickets table as read by the single-ticket revocation
handler. -/
structure RTicket where
  ticket_id : Nat
  ticket_status : String
  nft_contract_address : Option String
  nft_token_id : Option String
  is_parent_ticket : Bool
  total_tickets_in_group : Nat
  parent_ticket_id : Option Nat
  deriving Repr, DecidableEq

/-- The three tables the revocation handlers touch, with fresh-id counters
for the generated primary keys. -/
structure AdminDb where
  tickets : List RTicket
  logs : List LogRow
  queue : List QueueItem
  nextLogId : Nat
  nextQueueId : Nat
  deriving Repr, DecidableEq

/-- Success or failure of each database write the single-ticket handler
performs. -/
structure RevokeEnv where
  updateOk : Bool
  logInsertOk : Bool
  queueInsertOk : Bool
  childSelectOk : Bool
  childUpdateOk : Bool
  childLogInsertOk : Bool
  deriving Repr, DecidableEq

/-- An HTTP status code together with the database contents after the
request. -/
structure RevokeResult where
  code : Nat
  db : AdminDb
  deriving Repr, DecidableEq

/-- Point lookup of a ticket by primary key. -/
def findTicket (tickets : List RTicket) (tid : Nat) : Option RTicket :=
  tickets.find? (fun t => t.ticket_id == tid)

/-- Update-by-predicate setting the status of the row with the given id. -/
def setTicketStatus (tickets : List RTicket) (tid : Nat) (st : String) :
    List RTicket :=
  tickets.map
    (fun t => if t.ticket_id = tid then { t with ticket_status := st } else t)

/-- A ticket carries ledger linkage when both the contract address and the
token id are present. -/
def ticketLinked (t : RTicket) : Bool :=
  t.nft_contract_address.isSome && t.nft_token_id.isSome

/-- The reason string attached to each cascade child audit entry. -/
def childReason (tid : Nat) (reason : String) : String :=
  "Revoked as part of group. Parent ticket " ++ toString tid ++
  " was revoked. Reason: " ++ reason

/-- The single-ticket revocation handler (the body after authentication and
field validation): 404 when the ticket is missing, 409 when it is already
revoked, 500 when the status update fails; otherwise revoke locally, insert
the audit entry (pending when ledger-linked, not_applicable otherwise,
failure tolerated), enqueue the ledger write only when the ticket is linked
and the audit insert succeeded (failure tolerated), then cascade to valid
children of a parent ticket, whose audit entries always carry
not_applicable. -/
def revokeHandler (env : RevokeEnv) (db : AdminDb) (tid : Nat)
    (reason adminId : String) : RevokeResult :=
  match findTicket db.tickets tid with
  | none => ⟨404, db⟩
  | some t =>
    if t.ticket_status = "revoked" then ⟨409, db⟩
    else if !env.updateOk then ⟨500, db⟩
    else
      let tickets1 := setTicketStatus db.tickets tid "revoked"
      let blockchainStatus :=
        if ticketLinked t then "pending" else "not_applicable"
      let mainLog : LogRow :=
        ⟨db.nextLogId, tid, adminId, reason, some blockchainStatus, none⟩
      let logs1 := if env.logInsertOk then db.logs ++ [mainLog] else db.logs
      let nid1 := if env.logInsertOk then db.nextLogId + 1 else db.nextLogId
      let queue1 :=
        if env.logInsertOk ∧ blockchainStatus = "pending" ∧
            env.queueInsertOk then
          db.queue ++
            [⟨db.nextQueueId, tid, some mainLog.id, "pending", 0, none,
              none, 0⟩]
        else db.queue
      let qid1 :=
        if env.logInsertOk ∧ blockchainStatus = "pending" ∧
            env.queueInsertOk then
          db.nextQueueId + 1
        else db.nextQueueId
      let doCascade := t.is_parent_ticket ∧ t.total_tickets_in_group > 1
      let children :=
        if doCascade ∧ env.childSelectOk then
          tickets1.filter
            (fun c => c.parent_ticket_id == some tid &&
                      c.ticket_status == "valid")
        else []
      let childIds := children.map (fun c => c.ticket_id)
      let tickets2 :=
        if children.isEmpty ∨ !env.childUpdateOk then tickets1
        else
          tickets1.map
            (fun c =>
              if childIds.contains c.ticket_id then
                { c with ticket_status := "revoked" }
              else c)
      let childLogs :=
        (children.enum).map
          (fun p =>
            (⟨nid1 + p.1, p.2.ticket_id, adminId, childReason tid reason,
              some "not_applicable", none⟩ : LogRow))
      let logs2 :=
        if children.isEmpty ∨ !env.childUpdateOk ∨ !env.childLogInsertOk then
          logs1
        else logs1 ++ childLogs
      let nid2 :=
        if children.isEmpty ∨ !env.childUpdateOk ∨ !env.childLogInsertOk then
          nid1
        else nid1 + childLogs.length
      ⟨200, ⟨tickets2, logs2, queue1, nid2, qid1⟩⟩

/-! ## Revocation initiator, batch bot-detection path (the flagged-purchase
revocation handler, first variant) -/

/-- A row of the tickets table as read by the batch revocation handler. -/
structure BTicket where
  ticket_id : Nat
  payment_id : Nat
  ticket_status : String
  blockchain_registered : Bool
  nft_token_id : Option String
  deriving Repr, DecidableEq

/-- Tables touched by the batch handler. -/
structure BatchDb where
  tickets : List BTicket
  logs : List LogRow
  queue : List QueueItem
  nextLogId : Nat
  nextQueueId : Nat
  deriving Repr, DecidableEq

/-- Success or failure of the tolerated inserts of the batch handler. -/
structure BatchEnv where
  logInsertOk : Bool
  queueInsertOk : Bool
  deriving Repr, DecidableEq

/-- Response and database contents of the batch handler. -/
structure BatchResult where
  code : Nat
  db : BatchDb
  deriving Repr, DecidableEq

/-- The batch bot-detection revocation handler: select the valid tickets of
the flagged payments, revoke them all, insert one audit entry per revoked
ticket (without any blockchain_status value; failure tolerated), then queue
a ledger revocation for every revoked ticket that is blockchain-registered
with a token id — each queue row carrying a null revocation_log_id
(failure tolerated). -/
def batchRevokeHandler (env : BatchEnv) (db : BatchDb)
    (paymentIds : List Nat) (reason adminId : String) : BatchResult :=
  let toRevoke :=
    db.tickets.filter
      (fun t => paymentIds.contains t.payment_id &&
                t.ticket_status == "valid")
  if toRevoke.isEmpty then ⟨400, db⟩
  else
    let revokedIds := toRevoke.map (fun t => t.ticket_id)
    let tickets1 :=
      db.tickets.map
        (fun t =>
          if revokedIds.contains t.ticket_id then
            { t with ticket_status := "revoked" }
          else t)
    let revokedTickets :=
      toRevoke.map (fun t => { t with ticket_status := "revoked" })
    let newLogs :=
      (revokedTickets.enum).map
        (fun p =>
          (⟨db.nextLogId + p.1, p.2.ticket_id, adminId, reason, none,
            none⟩ : LogRow))
    let logs1 := if env.logInsertOk then db.logs ++ newLogs else db.logs
    let nid1 :=
      if env.logInsertOk then db.nextLogId + newLogs.length else db.nextLogId
    let queueTickets :=
      revokedTickets.filter
        (fun t => t.blockchain_registered && t.nft_token_id.isSome)
    let newQueue :=
      (queueTickets.enum).map
        (fun p =>
          (⟨db.nextQueueId + p.1, p.2.ticket_id, none, "pending", 0, none,
            none, 0⟩ : QueueItem))
    let queue1 :=
      if newQueue.isEmpty then db.queue
      else if env.queueInsertOk then db.queue ++ newQueue else db.queue
    let qid1 :=
      if newQueue.isEmpty then db.nextQueueId
      else if env.queueInsertOk then db.nextQueueId + newQueue.length
      else db.nextQueueId
    ⟨200, ⟨tickets1, logs1, queue1, nid1, qid1⟩⟩

end TicketingDb

namespace TicketingDb

theorem mem_insertByCreated {x y : QueueItem} :
    ∀ {l : List QueueItem}, x ∈ insertByCreated y l → x = y ∨ x ∈ l
  | [], h => by simpa [insertByCreated] using h
  | z :: zs, h => by
    simp only [insertByCreated] at h
    split at h
    · rcases List.mem_cons.mp h with h | h
      · exact Or.inl h
      · exact Or.inr h
    · rcases List.mem_cons.mp h with h | h
      · exact Or.inr (by simp [h])
      · rcases mem_insertByCreated h with h | h
        · exact Or.inl h
        · exact Or.inr (List.mem_cons_of_mem _ h)

theorem mem_sortByCreated {x : QueueItem} :
    ∀ {l : List QueueItem}, x ∈ sortByCreated l → x ∈ l
  | [], h => by simp [sortByCreated] at h
  | z :: zs, h => by
    simp only [sortByCreated] at h
    rcases mem_insertByCreated h with h | h
    · simp [h]
    · simp [mem_sortByCreated h]

theorem not_pending_not_fetched {x : QueueItem} (q : List QueueItem)
    (h : x.status ≠ "pending") : x ∉ fetchPendingItems q := by
  intro hmem
  have h1 : x ∈ sortByCreated (q.filter (fun i => i.status == "pending")) :=
    List.mem_of_mem_take hmem
  have h2 := mem_sortByCreated h1
  have h3 := List.of_mem_filter h2
  exact h (by simpa using h3)

/-- C1: a queue item that fails three consecutive processing attempts has
its retry_count incremented by one on each failure, is requeued as pending
after the first two, becomes terminally failed with its audit entry marked
failed on the third, and — because the worker fetch selects only pending
items — is never selected for a fourth attempt. -/
theorem worker_retry_ceiling (item : QueueItem) (tk : WorkerTicket)
    (e1 e2 e3 : WorkerEnv) (m1 m2 m3 : String) (now : Nat)
    (hrc : item.retry_count = 0)
    (hca : tk.nft_contract_address.isNone = false)
    (hto : tk.nft_token_id.isNone = false)
    (h1 : e1.isRevokedResult = .error m1)
    (h2 : e2.isRevokedResult = .error m2)
    (h3 : e3.isRevokedResult = .error m3) :
    let o1 := processQueueItem e1 (some tk) now item
    let o2 := processQueueItem e2 (some tk) now o1.item
    let o3 := processQueueItem e3 (some tk) now o2.item
    o1.item.retry_count = 1 ∧ o1.item.status = "pending" ∧
    o1.logStatus = none ∧
    o2.item.retry_count = 2 ∧ o2.item.status = "pending" ∧
    o2.logStatus = none ∧
    o3.item.retry_count = 3 ∧ o3.item.status = "failed" ∧
    o3.logStatus = some "failed" ∧
    ∀ q : List QueueItem, o3.item ∉ fetchPendingItems q := by
  refine ⟨?_, ?_, ?_, ?_, ?_, ?_, ?_, ?_, ?_, ?_⟩ <;>
    simp [processQueueItem, workerCatch, hca, hto, h1, h2, h3, hrc]
  exact fun q =>
    not_pending_not_fetched q
      (by simp [processQueueItem, workerCatch, hca, hto, h1, h2, h3, hrc])

/-- C1 witness: the retry ceiling theorem evaluated on a concrete fresh
queue item and a linked ticket with three failing ledger reads. -/
theorem worker_retry_ceiling_witness :
    let item : QueueItem := ⟨1, 7, some 4, "pending", 0, none, none, 0⟩
    let tk : WorkerTicket := ⟨7, some "0xc", some "42"⟩
    let e : WorkerEnv := ⟨.error "rpc down", .ok "0xtx"⟩
    let o1 := processQueueItem e (some tk) 5 item
    let o2 := processQueueItem e (some tk) 5 o1.item
    let o3 := processQueueItem e (some tk) 5 o2.item
    o1.item.retry_count = 1 ∧ o1.item.status = "pending" ∧
    o1.logStatus = none ∧
    o2.item.retry_count = 2 ∧ o2.item.status = "pending" ∧
    o2.logStatus = none ∧
    o3.item.retry_count = 3 ∧ o3.item.status = "failed" ∧
    o3.logStatus = some "failed" ∧
    ∀ q : List QueueItem, o3.item ∉ fetchPendingItems q :=
  worker_retry_ceiling ⟨1, 7, some 4, "pending", 0, none, none, 0⟩
    ⟨7, some "0xc", some "42"⟩ ⟨.error "rpc down", .ok "0xtx"⟩
    ⟨.error "rpc down", .ok "0xtx"⟩ ⟨.error "rpc down", .ok "0xtx"⟩
    "rpc down" "rpc down" "rpc down" 5 rfl rfl rfl rfl rfl rfl

/-- C3 counterexample: on an already-revoked token the worker marks the
queue item completed without a ledger write, but writes blockchain_status
confirmed — not completed — to the audit entry. -/
theorem worker_already_revoked_counterexample :
    let item : QueueItem := ⟨1, 7, some 4, "pending", 0, none, none, 0⟩
    let tk : WorkerTicket := ⟨7, some "0xc", some "42"⟩
    let o := processQueueItem ⟨.ok true, .ok "0xtx"⟩ (some tk) 5 item
    o.item.status = "completed" ∧ o.revokeCalled = false ∧
    o.logStatus = some "confirmed" ∧ o.logStatus ≠ some "completed" := by
  decide

/-- C3 amended: for every queue item whose ticket the ledger already
reports as revoked, the worker short-circuits without issuing the revoke
call, marks the queue item completed, and sets the linked audit entry to
the value confirmed, which is outside the four documented audit values. -/
theorem worker_already_revoked_shortcircuit (env : WorkerEnv)
    (tk : WorkerTicket) (item : QueueItem) (now : Nat)
    (hca : tk.nft_contract_address.isNone = false)
    (hto : tk.nft_token_id.isNone = false)
    (hrev : env.isRevokedResult = .ok true) :
    let o := processQueueItem env (some tk) now item
    o.item.status = "completed" ∧ o.revokeCalled = false ∧
    o.logStatus = some "confirmed" := by
  simp [processQueueItem, hca, hto, hrev]

/-- C3 witness: the amended short-circuit theorem evaluated on a concrete
linked ticket whose token the ledger reports revoked. -/
theorem worker_already_revoked_shortcircuit_witness :
    let item : QueueItem := ⟨2, 8, some 5, "pending", 1, none, none, 0⟩
    let tk : WorkerTicket := ⟨8, some "0xd", some "43"⟩
    let o := processQueueItem ⟨.ok true, .error "unused"⟩ (some tk) 9 item
    o.item.status = "completed" ∧ o.revokeCalled = false ∧
    o.logStatus = some "confirmed" :=
  worker_already_revoked_shortcircuit ⟨.ok true, .error "unused"⟩
    ⟨8, some "0xd", some "43"⟩ ⟨2, 8, some 5, "pending", 1, none, none, 0⟩
    9 rfl rfl rfl

/-- C6: a revoke request for a ticket whose stored status is already
revoked answers 409 and leaves the tickets, audit-log and queue tables
exactly as they were. -/
theorem revoke_already_revoked_conflict (env : RevokeEnv) (db : AdminDb)
    (tid : Nat) (reason adminId : String) (t : RTicket)
    (hfind : findTicket db.tickets tid = some t)
    (hrev : t.ticket_status = "revoked") :
    revokeHandler env db tid reason adminId = ⟨409, db⟩ := by
  simp [revokeHandler, hfind, hrev]

/-- C6 witness: the conflict theorem evaluated on a concrete database
holding one already-revoked ticket. -/
theorem revoke_already_revoked_conflict_witness :
    revokeHandler ⟨true, true, true, true, true, true⟩
      ⟨[⟨3, "revoked", none, none, false, 1, none⟩], [], [], 0, 0⟩
      3 "fraud" "admin-1" =
    ⟨409, ⟨[⟨3, "revoked", none, none, false, 1, none⟩], [], [], 0, 0⟩⟩ :=
  revoke_already_revoked_conflict ⟨true, true, true, true, true, true⟩
    ⟨[⟨3, "revoked", none, none, false, 1, none⟩], [], [], 0, 0⟩
    3 "fraud" "admin-1" ⟨3, "revoked", none, none, false, 1, none⟩
    rfl rfl

/-- C8: the state verifier is read-only — for every database contents,
ledger behaviour and parameters, the tables after a verification run are
the tables before it. -/
theorem verifier_readonly (env : Nat → Except String (Nat × Bool))
    (vtype : String) (limit : Nat) (tickets : List Ticket)
    (logs : List LogRow) (queue : List QueueItem) :
    (verifierRun env vtype limit tickets logs queue).1 =
      (tickets, logs, queue) := rfl

/-- Pattern-match reduction of the interpretation table on a status code of
at least 3. -/
theorem interpretStatus_ge3 (t : Ticket) (k : Nat) :
    interpretStatus t (k + 3) = (t.ticket_status, t.blockchain_registered) :=
  rfl

/-- C10: a ledger status code outside 0, 1, 2 syncs a ticket as in-sync —
no discrepancy is counted, the local status, registered flag, mint status
and token id are untouched, and only the last-sync timestamp and sync
status code are written (when the bookkeeping write itself fails, the row
is fully unchanged). -/
theorem reconciler_unknown_status_frame (e : TicketEnv) (now : Nat)
    (t : Ticket) (bs : Nat)
    (hled : e.ledger = .ok bs) (hbs : 3 ≤ bs) :
    let r := syncStep e now t
    r.2 = .in_sync ∧
    r.1.ticket_status = t.ticket_status ∧
    r.1.blockchain_registered = t.blockchain_registered ∧
    r.1.nft_mint_status = t.nft_mint_status ∧
    r.1.nft_token_id = t.nft_token_id ∧
    r.1.ticket_id = t.ticket_id ∧
    (e.dbOk = true →
      r.1.last_blockchain_sync = some now ∧
      r.1.blockchain_sync_status = some bs) ∧
    (e.dbOk = false → r.1 = t) := by
  obtain ⟨k, hk⟩ : ∃ k, bs = k + 3 := ⟨bs - 3, by omega⟩
  subst hk
  cases hdb : e.dbOk <;>
    simp [syncStep, hled, interpretStatus_ge3, hdb]

/-- C10 witness: the unknown-status frame theorem evaluated on a concrete
ticket receiving ledger status 7. -/
theorem reconciler_unknown_status_frame_witness :
    let t : Ticket := ⟨11, some "42", "valid", true, "minted", none, none⟩
    let e : TicketEnv := ⟨.ok 7, true⟩
    let r := syncStep e 100 t
    r.2 = .in_sync ∧
    r.1.ticket_status = t.ticket_status ∧
    r.1.blockchain_registered = t.blockchain_registered ∧
    r.1.nft_mint_status = t.nft_mint_status ∧
    r.1.nft_token_id = t.nft_token_id ∧
    r.1.ticket_id = t.ticket_id ∧
    (e.dbOk = true →
      r.1.last_blockchain_sync = some 100 ∧
      r.1.blockchain_sync_status = some 7) ∧
    (e.dbOk = false → r.1 = t) :=
  reconciler_unknown_status_frame ⟨.ok 7, true⟩ 100
    ⟨11, some "42", "valid", true, "minted", none, none⟩ 7 rfl (by omega)

/-- C2: a ledger-linked ticket that is locally valid and registered while
the ledger reports status 2 is updated by one reconciler run to revoked
with the registered flag still true, and the discrepancy counter of the
run is exactly 1. -/
theorem reconciler_revoked_discrepancy (env : Nat → TicketEnv)
    (limit now : Nat) (t : Ticket)
    (hstatus : t.ticket_status = "valid")
    (_hreg : t.blockchain_registered = true)
    (htok : t.nft_token_id.isSome = true)
    (hstale : staleAt now t = true)
    (hled : (env t.ticket_id).ledger = .ok 2)
    (hdb : (env t.ticket_id).dbOk = true)
    (hlim : 1 ≤ limit) :
    let r := runSync env limit now false [t]
    r.2 = 1 ∧ r.1.map (fun u => u.ticket_status) = ["revoked"] ∧
    r.1.map (fun u => u.blockchain_registered) = [true] := by
  have hsel : selectForSync limit now false [t] = [t] := by
    have hfil : List.filter (syncSelectPred now false) [t] = [t] := by
      simp [syncSelectPred, htok, hstale]
    simp only [selectForSync, hfil]
    exact List.take_of_length_le (by simpa using hlim)
  have hstep : syncStep (env t.ticket_id) now t =
      ({ t with ticket_status := "revoked",
                blockchain_registered := true,
                nft_mint_status := "minted",
                last_blockchain_sync := some now,
                blockchain_sync_status := some 2 }, .updated) := by
    simp [syncStep, hled, interpretStatus, hstatus, hdb]
  simp [runSync, hsel, syncLoop, hstep, updateTicketRow]

theorem charsPrefix_append (p rest : List Char) :
    charsPrefix p (p ++ rest) = true := by
  induction p with
  | nil => rfl
  | cons a as ih => simp [charsPrefix, ih]

theorem charsContains_of_charsPrefix {p : List Char} :
    ∀ {l : List Char}, charsPrefix p l = true → charsContains p l = true
  | [], h => by simpa [charsContains] using h
  | _ :: _, h => by simp [charsContains, h]

theorem charsContains_cons {p l : List Char} (c : Char)
    (h : charsContains p l = true) : charsContains p (c :: l) = true := by
  simp [charsContains, h]

theorem charsContains_append_left (pre : List Char) {p l : List Char}
    (h : charsContains p l = true) : charsContains p (pre ++ l) = true := by
  induction pre with
  | nil => simpa using h
  | cons c cs ih => simpa [List.cons_append] using charsContains_cons c ih

theorem strContains_joinSep {s : String} (sep : String) :
    ∀ {l : List String}, s ∈ l → strContains (joinSep sep l) s = true
  | [], h => absurd h (List.not_mem_nil s)
  | [x], h => by
    have hx : s = x := by simpa using h
    subst hx
    simpa [strContains, joinSep] using
      charsContains_of_charsPrefix
        (by simpa using charsPrefix_append s.data [])
  | x :: y :: rest, h => by
    rcases List.mem_cons.mp h with hx | h2
    · subst hx
      have : (s ++ sep ++ joinSep sep (y :: rest)).data =
          s.data ++ (sep.data ++ (joinSep sep (y :: rest)).data) := by
        simp [String.data_append]
      simp only [strContains, joinSep, this]
      exact charsContains_of_charsPrefix (charsPrefix_append _ _)
    · have ih := strContains_joinSep sep h2
      have : (x ++ sep ++ joinSep sep (y :: rest)).data =
          (x.data ++ sep.data) ++ (joinSep sep (y :: rest)).data := by
        simp [String.data_append]
      simp only [strContains, joinSep, this]
      exact charsContains_append_left _ ih

/-- C7 counterexample: on ledger status 2 with isRevoked read back false
and a locally valid ticket, the verifier flags the ticket, but the reason
string does not mention that the token is marked as valid — only that it
is not marked as revoked. -/
theorem verifier_reason_counterexample :
    let t : Ticket := ⟨9, some "42", "valid", true, "minted", none, none⟩
    let v := analyzeTokenVerification t 2 false
    v.has_inconsistency = true ∧
    strContains (v.inconsistency_reason.getD "") "marked as valid" =
      false := by
  decide

/-- C7 amended: the verifier flags a ticket exactly when at least one of
the five documented mismatch rules holds, and whenever the isRevoked read
is true while the local status is valid the reason mentions that the token
is revoked on blockchain but marked as valid in DB; the mention is only
guaranteed when the isRevoked read itself is true, not for ledger status 2
alone. -/
theorem verifier_flag_rules (t : Ticket) (bs : Nat) (rev : Bool) :
    (analyzeTokenVerification t bs rev).has_inconsistency =
      specMismatch t bs rev ∧
    (rev = true → t.ticket_status = "valid" →
      strContains
        ((analyzeTokenVerification t bs rev).inconsistency_reason.getD "")
        "Token is revoked on blockchain but marked as valid in DB" =
        true) := by
  constructor
  · cases h1 : (bs == 0 && t.blockchain_registered) <;>
    cases h2 : (bs == 1 && !(t.ticket_status == "valid")) <;>
    cases h3 : (bs == 2 && !(t.ticket_status == "revoked")) <;>
    cases h4 : (rev && t.ticket_status == "valid") <;>
    cases h5 : (!t.blockchain_registered && decide (bs > 0)) <;>
      simp [analyzeTokenVerification, verifyReasons, specMismatch,
            h1, h2, h3, h4, h5]
  · intro hrev hval
    have hmem :
        "Token is revoked on blockchain but marked as valid in DB" ∈
          verifyReasons t bs rev := by
      simp [verifyReasons, hrev, hval]
    have hne : verifyReasons t bs rev ≠ [] := List.ne_nil_of_mem hmem
    have hde : (verifyReasons t bs rev).isEmpty = false := by
      simpa [List.isEmpty_iff] using hne
    simp only [analyzeTokenVerification, hde, Bool.false_eq_true,
      if_false, Option.getD_some]
    exact strContains_joinSep "; " hmem

/-- C7 witness: the amended rule theorem evaluated on a valid registered
ticket whose ledger reads are status 2 and isRevoked true. -/
theorem verifier_flag_rules_witness :
    (analyzeTokenVerification
        ⟨9, some "42", "valid", true, "minted", none, none⟩ 2
        true).has_inconsistency =
      specMismatch ⟨9, some "42", "valid", true, "minted", none, none⟩ 2
        true ∧
    strContains
      ((analyzeTokenVerification
          ⟨9, some "42", "valid", true, "minted", none, none⟩ 2
          true).inconsistency_reason.getD "")
      "Token is revoked on blockchain but marked as valid in DB" = true :=
  ⟨(verifier_flag_rules
      ⟨9, some "42", "valid", true, "minted", none, none⟩ 2 true).1,
   (verifier_flag_rules
      ⟨9, some "42", "valid", true, "minted", none, none⟩ 2 true).2
     rfl rfl⟩

/-- C2 witness: the scenario of the specification — ticket T101, locally
valid and registered with token 42, ledger status 2 — evaluated through a
concrete run. -/
theorem reconciler_revoked_discrepancy_witness :
    let t : Ticket := ⟨101, some "42", "valid", true, "minted", none, none⟩
    let env : Nat → TicketEnv := fun _ => ⟨.ok 2, true⟩
    let r := runSync env 100 1000 false [t]
    r.2 = 1 ∧ r.1.map (fun u => u.ticket_status) = ["revoked"] ∧
    r.1.map (fun u => u.blockchain_registered) = [true] :=
  reconciler_revoked_discrepancy (fun _ => ⟨.ok 2, true⟩) 100 1000
    ⟨101, some "42", "valid", true, "minted", none, none⟩
    rfl rfl rfl rfl rfl rfl (by omega)

theorem snd_mem_of_mem_enum {α : Type} {x : Nat × α} {l : List α}
    (h : x ∈ l.enum) : x.2 ∈ l := by
  have h2 := List.mem_enum_iff_getElem?.mp h
  exact List.getElem?_mem h2

theorem mem_cascade_children_ne {ts : List RTicket} {tid : Nat}
    {c : RTicket}
    (h : c ∈ (setTicketStatus ts tid "revoked").filter
        (fun c => c.parent_ticket_id == some tid &&
                  c.ticket_status == "valid")) :
    c.ticket_id ≠ tid := by
  obtain ⟨horig, hpred⟩ := List.mem_filter.mp h
  simp only [setTicketStatus] at horig
  rcases List.mem_map.mp horig with ⟨o, _ho, hfo⟩
  by_cases hid : o.ticket_id = tid
  · rw [if_pos hid] at hfo
    rw [← hfo] at hpred
    simp at hpred
  · rw [if_neg hid] at hfo
    rw [← hfo]
    exact hid

theorem revokeHandler_logs_decomp (env : RevokeEnv) (db : AdminDb)
    (tid : Nat) (reason adminId : String) (t : RTicket)
    (hfind : findTicket db.tickets tid = some t)
    (hnot : t.ticket_status ≠ "revoked")
    (hupd : env.updateOk = true)
    (hlog : env.logInsertOk = true) :
    ∃ clogs : List LogRow,
      (revokeHandler env db tid reason adminId).db.logs =
        db.logs ++
          (⟨db.nextLogId, tid, adminId, reason,
            some (if ticketLinked t then "pending" else "not_applicable"),
            none⟩ : LogRow) :: clogs ∧
      ∀ l ∈ clogs, l.ticket_id ≠ tid ∧
        l.blockchain_status = some "not_applicable" := by
  simp only [revokeHandler, hfind, hupd]
  rw [if_neg hnot]
  simp only [Bool.not_true, Bool.false_eq_true, if_false, hlog, if_true]
  by_cases hcs :
      (t.is_parent_ticket = true ∧ t.total_tickets_in_group > 1) ∧
        env.childSelectOk = true
  · simp only [if_pos hcs]
    by_cases hskip :
        (List.filter
            (fun c => c.parent_ticket_id == some tid &&
                      c.ticket_status == "valid")
            (setTicketStatus db.tickets tid "revoked")).isEmpty = true ∨
          (!env.childUpdateOk) = true ∨ (!env.childLogInsertOk) = true
    · rw [if_pos hskip]
      exact ⟨[], by simp, by simp⟩
    · rw [if_neg hskip]
      refine ⟨(List.filter
            (fun c => c.parent_ticket_id == some tid &&
                      c.ticket_status == "valid")
            (setTicketStatus db.tickets tid "revoked")).enum.map
          (fun p =>
            (⟨db.nextLogId + 1 + p.1, p.2.ticket_id, adminId,
              childReason tid reason, some "not_applicable", none⟩ :
              LogRow)), by simp, ?_⟩
      intro l hl
      rcases List.mem_map.mp hl with ⟨p, hp, hlp⟩
      constructor
      · rw [← hlp]
        exact mem_cascade_children_ne (snd_mem_of_mem_enum hp)
      · rw [← hlp]
  · simp only [if_neg hcs]
    refine ⟨[], ?_, by simp⟩
    simp

/-- C4 counterexample: a cascade child that itself carries full ledger
linkage still receives an audit entry with blockchain_status
not_applicable from the group revocation path. -/
theorem initiator_child_audit_counterexample :
    let p : RTicket := ⟨1, "valid", none, none, true, 2, none⟩
    let c : RTicket := ⟨2, "valid", some "0xc", some "42", false, 1, some 1⟩
    let db : AdminDb := ⟨[p, c], [], [], 10, 20⟩
    let out := revokeHandler ⟨true, true, true, true, true, true⟩ db 1
      "fraud" "admin-1"
    ticketLinked c = true ∧
    (out.db.logs.filter (fun l => l.ticket_id == 2)).map
      (fun l => l.blockchain_status) = [some "not_applicable"] := by
  decide

/-- C4 amended: on a successful single-ticket revocation with a successful
audit insert, the audit entry of the revoked target ticket carries
ledger_status not_applicable exactly when the target has no ledger linkage
and pending otherwise, while every audit entry inserted for a cascade child
carries not_applicable unconditionally, regardless of the linkage of the
child. -/
theorem initiator_audit_status (env : RevokeEnv) (db : AdminDb) (tid : Nat)
    (reason adminId : String) (t : RTicket)
    (hfind : findTicket db.tickets tid = some t)
    (hnot : t.ticket_status ≠ "revoked")
    (hupd : env.updateOk = true)
    (hlog : env.logInsertOk = true) :
    ((revokeHandler env db tid reason adminId).db.logs.drop
        db.logs.length).all
      (fun l =>
        if l.ticket_id = tid then
          l.blockchain_status ==
            some (if ticketLinked t then "pending" else "not_applicable")
        else l.blockchain_status == some "not_applicable") = true ∧
    ((revokeHandler env db tid reason adminId).db.logs.drop
        db.logs.length).any (fun l => l.ticket_id == tid) = true := by
  obtain ⟨clogs, heq, hprop⟩ :=
    revokeHandler_logs_decomp env db tid reason adminId t hfind hnot hupd
      hlog
  rw [heq, List.drop_left]
  constructor
  · rw [List.all_cons]
    refine (Bool.and_eq_true _ _).mpr ⟨by simp, ?_⟩
    rw [List.all_eq_true]
    intro l hl
    obtain ⟨hne, hst⟩ := hprop l hl
    rw [if_neg hne, hst]
    simp
  · rw [List.any_cons]
    simp

/-- C4 witness: the amended audit-status theorem evaluated on a concrete
database with a ledger-linked target ticket. -/
theorem initiator_audit_status_witness :
    ((revokeHandler ⟨true, true, true, true, true, true⟩
        ⟨[⟨1, "valid", some "0xc", some "42", false, 1, none⟩], [], [],
          10, 20⟩ 1 "fraud" "admin-1").db.logs.drop 0).all
      (fun l =>
        if l.ticket_id = 1 then
          l.blockchain_status ==
            some (if ticketLinked
                ⟨1, "valid", some "0xc", some "42", false, 1, none⟩ then
                "pending" else "not_applicable")
        else l.blockchain_status == some "not_applicable") = true ∧
    ((revokeHandler ⟨true, true, true, true, true, true⟩
        ⟨[⟨1, "valid", some "0xc", some "42", false, 1, none⟩], [], [],
          10, 20⟩ 1 "fraud" "admin-1").db.logs.drop 0).any
      (fun l => l.ticket_id == 1) = true :=
  initiator_audit_status ⟨true, true, true, true, true, true⟩
    ⟨[⟨1, "valid", some "0xc", some "42", false, 1, none⟩], [], [], 10, 20⟩
    1 "fraud" "admin-1" ⟨1, "valid", some "0xc", some "42", false, 1, none⟩
    rfl (by decide) rfl rfl

theorem findTicket_setTicketStatus (ts : List RTicket) (tid : Nat)
    (st : String) :
    findTicket (setTicketStatus ts tid st) tid =
      (findTicket ts tid).map (fun t => { t with ticket_status := st }) := by
  induction ts with
  | nil => rfl
  | cons a as ih =>
    by_cases h : a.ticket_id = tid
    · simp only [findTicket, setTicketStatus, List.map_cons, if_pos h]
      rw [List.find?_cons_of_pos _ (by simp [h]),
          List.find?_cons_of_pos _ (by simp [h])]
      rfl
    · simp only [findTicket, setTicketStatus, List.map_cons, if_neg h]
      rw [List.find?_cons_of_neg _ (by simp [h]),
          List.find?_cons_of_neg _ (by simp [h])]
      exact ih

theorem findTicket_cascadeUpdate (ts : List RTicket) (tid : Nat)
    (ids : List Nat) (hid : ids.contains tid = false) :
    findTicket
      (ts.map
        (fun c =>
          if ids.contains c.ticket_id then
            { c with ticket_status := "revoked" }
          else c)) tid =
      findTicket ts tid := by
  induction ts with
  | nil => rfl
  | cons a as ih =>
    by_cases h : a.ticket_id = tid
    · have hca : ids.contains a.ticket_id = false := by rw [h]; exact hid
      simp only [findTicket, List.map_cons, hca, Bool.false_eq_true,
        if_false]
      rw [List.find?_cons_of_pos _ (by simp [h]),
          List.find?_cons_of_pos _ (by simp [h])]
    · by_cases hc : ids.contains a.ticket_id = true
      · simp only [findTicket, List.map_cons, hc, if_true]
        rw [List.find?_cons_of_neg _ (by simp [h]),
            List.find?_cons_of_neg _ (by simp [h])]
        exact ih
      · simp only [Bool.not_eq_true] at hc
        simp only [findTicket, List.map_cons, hc, Bool.false_eq_true,
          if_false]
        rw [List.find?_cons_of_neg _ (by simp [h]),
            List.find?_cons_of_neg _ (by simp [h])]
        exact ih

theorem contains_cascade_children_false {ts : List RTicket} {tid : Nat} :
    ((List.filter
        (fun c => c.parent_ticket_id == some tid &&
                  c.ticket_status == "valid")
        (setTicketStatus ts tid "revoked")).map
      (fun c => c.ticket_id)).contains tid = false := by
  by_contra hcon
  simp only [Bool.not_eq_false, List.contains_iff_exists_mem_beq] at hcon
  obtain ⟨i, hi, hbeq⟩ := hcon
  rcases List.mem_map.mp hi with ⟨c, hc, hci⟩
  have hne := mem_cascade_children_ne hc
  rw [← hci] at hbeq
  have heq : tid = c.ticket_id := by simpa using hbeq
  exact hne heq.symm

theorem revokeHandler_found_revoked (env : RevokeEnv) (db : AdminDb)
    (tid : Nat) (reason adminId : String) (t : RTicket)
    (hfind : findTicket db.tickets tid = some t)
    (hnot : t.ticket_status ≠ "revoked")
    (hupd : env.updateOk = true) :
    findTicket (revokeHandler env db tid reason adminId).db.tickets tid =
      some { t with ticket_status := "revoked" } := by
  simp only [revokeHandler, hfind, hupd]
  rw [if_neg hnot]
  simp only [Bool.not_true, Bool.false_eq_true, if_false]
  have hbase :
      findTicket (setTicketStatus db.tickets tid "revoked") tid =
        some { t with ticket_status := "revoked" } := by
    rw [findTicket_setTicketStatus, hfind]
    rfl
  by_cases hcs :
      (t.is_parent_ticket = true ∧ t.total_tickets_in_group > 1) ∧
        env.childSelectOk = true
  · simp only [if_pos hcs]
    by_cases hskip :
        (List.filter
            (fun c => c.parent_ticket_id == some tid &&
                      c.ticket_status == "valid")
            (setTicketStatus db.tickets tid "revoked")).isEmpty = true ∨
          (!env.childUpdateOk) = true
    · rw [if_pos hskip]
      exact hbase
    · rw [if_neg hskip]
      rw [findTicket_cascadeUpdate _ _ _ contains_cascade_children_false]
      exact hbase
  · simp only [if_neg hcs]
    simp only [List.isEmpty_nil, true_or, if_true]
    exact hbase

theorem revokeHandler_queue_decomp (env : RevokeEnv) (db : AdminDb)
    (tid : Nat) (reason adminId : String) (t : RTicket)
    (hfind : findTicket db.tickets tid = some t)
    (hnot : t.ticket_status ≠ "revoked")
    (hupd : env.updateOk = true) :
    (revokeHandler env db tid reason adminId).db.queue =
      db.queue ++
        (if env.logInsertOk = true ∧ ticketLinked t = true ∧
            env.queueInsertOk = true then
          [⟨db.nextQueueId, tid, some db.nextLogId, "pending", 0, none,
            none, 0⟩]
         else []) := by
  simp only [revokeHandler, hfind, hupd]
  rw [if_neg hnot]
  simp only [Bool.not_true, Bool.false_eq_true, if_false]
  by_cases hlg : env.logInsertOk = true <;>
  by_cases hq : env.queueInsertOk = true <;>
  by_cases hl : ticketLinked t = true <;>
    simp [hlg, hq, hl]

theorem revokeHandler_code (env : RevokeEnv) (db : AdminDb) (tid : Nat)
    (reason adminId : String) (t : RTicket)
    (hfind : findTicket db.tickets tid = some t)
    (hnot : t.ticket_status ≠ "revoked")
    (hupd : env.updateOk = true) :
    (revokeHandler env db tid reason adminId).code = 200 := by
  simp only [revokeHandler, hfind, hupd]
  rw [if_neg hnot]
  simp only [Bool.not_true, Bool.false_eq_true, if_false]

theorem revokeHandler_logs_prefix (env : RevokeEnv) (db : AdminDb)
    (tid : Nat) (reason adminId : String) (t : RTicket)
    (hfind : findTicket db.tickets tid = some t)
    (hnot : t.ticket_status ≠ "revoked")
    (hupd : env.updateOk = true) :
    (revokeHandler env db tid reason adminId).db.logs.take
      db.logs.length = db.logs := by
  simp only [revokeHandler, hfind, hupd]
  rw [if_neg hnot]
  simp only [Bool.not_true, Bool.false_eq_true, if_false]
  by_cases hlg : env.logInsertOk = true
  · simp only [hlg, if_true]
    by_cases hcs :
        (t.is_parent_ticket = true ∧ t.total_tickets_in_group > 1) ∧
          env.childSelectOk = true
    · simp only [if_pos hcs]
      by_cases hskip :
          (List.filter
              (fun c => c.parent_ticket_id == some tid &&
                        c.ticket_status == "valid")
              (setTicketStatus db.tickets tid "revoked")).isEmpty = true ∨
            (!env.childUpdateOk) = true ∨ (!env.childLogInsertOk) = true
      · rw [if_pos hskip]
        exact List.take_left _ _
      · rw [if_neg hskip, List.append_assoc]
        exact List.take_left _ _
    · simp only [if_neg hcs]
      simp only [List.isEmpty_nil, true_or, if_true]
      exact List.take_left _ _
  · have hlg2 : env.logInsertOk = false := by simpa using hlg
    simp only [hlg2, Bool.false_eq_true, if_false]
    by_cases hcs :
        (t.is_parent_ticket = true ∧ t.total_tickets_in_group > 1) ∧
          env.childSelectOk = true
    · simp only [if_pos hcs]
      by_cases hskip :
          (List.filter
              (fun c => c.parent_ticket_id == some tid &&
                        c.ticket_status == "valid")
              (setTicketStatus db.tickets tid "revoked")).isEmpty = true ∨
            (!env.childUpdateOk) = true ∨ (!env.childLogInsertOk) = true
      · rw [if_pos hskip]
        exact List.take_length _
      · rw [if_neg hskip]
        exact List.take_left _ _
    · simp only [if_neg hcs]
      simp only [List.isEmpty_nil, true_or, if_true]
      exact List.take_length _

theorem batch_queue_refs (benv : BatchEnv) (bdb : BatchDb)
    (pids : List Nat) (breason badmin : String) :
    ((batchRevokeHandler benv bdb pids breason badmin).db.queue.drop
        bdb.queue.length).all (fun q => q.revocation_log_id == none) =
      true := by
  simp only [batchRevokeHandler]
  split
  · simp [List.drop_length]
  · dsimp only
    split
    · simp [List.drop_length]
    · split
      · rw [List.drop_left]
        rw [List.all_eq_true]
        intro q hq
        rcases List.mem_map.mp hq with ⟨p, _hp, hqp⟩
        rw [← hqp]
        rfl
      · simp [List.drop_length]

/-- C5 counterexample: the batch bot-detection initiator revokes a
registered ticket with a token id, inserts its audit entry, and inserts a
queue item whose revocation_log_id is null instead of the id of that audit
entry. -/
theorem batch_queue_nullref_counterexample :
    let tk : BTicket := ⟨1, 1, "valid", true, some "5"⟩
    let db : BatchDb := ⟨[tk], [], [], 10, 20⟩
    let out := batchRevokeHandler ⟨true, true⟩ db [1] "bot" "admin-1"
    out.code = 200 ∧
    out.db.logs.map (fun l => l.ticket_id) = [1] ∧
    out.db.queue.map (fun q => q.revocation_log_id) = [none] := by
  decide

/-- C5 amended: in the single-ticket initiator a queue item is inserted
exactly when the ticket is ledger-linked and both the audit insert and the
queue insert succeed, and that item references the id of the audit entry;
the local revocation and the audit entries are never rolled back and the
request reports success regardless of the queue insert.  In the batch
bot-detection initiator every inserted queue item carries a null audit
reference instead. -/
theorem initiator_queue_link (env : RevokeEnv) (db : AdminDb) (tid : Nat)
    (reason adminId : String) (t : RTicket) (benv : BatchEnv)
    (bdb : BatchDb) (pids : List Nat) (breason badmin : String)
    (hfind : findTicket db.tickets tid = some t)
    (hnot : t.ticket_status ≠ "revoked")
    (hupd : env.updateOk = true) :
    (revokeHandler env db tid reason adminId).code = 200 ∧
    (revokeHandler env db tid reason adminId).db.queue =
      db.queue ++
        (if env.logInsertOk = true ∧ ticketLinked t = true ∧
            env.queueInsertOk = true then
          [⟨db.nextQueueId, tid, some db.nextLogId, "pending", 0, none,
            none, 0⟩]
         else []) ∧
    findTicket (revokeHandler env db tid reason adminId).db.tickets tid =
      some { t with ticket_status := "revoked" } ∧
    (revokeHandler env db tid reason adminId).db.logs.take
      db.logs.length = db.logs ∧
    ((batchRevokeHandler benv bdb pids breason badmin).db.queue.drop
        bdb.queue.length).all (fun q => q.revocation_log_id == none) =
      true :=
  ⟨revokeHandler_code env db tid reason adminId t hfind hnot hupd,
   revokeHandler_queue_decomp env db tid reason adminId t hfind hnot hupd,
   revokeHandler_found_revoked env db tid reason adminId t hfind hnot hupd,
   revokeHandler_logs_prefix env db tid reason adminId t hfind hnot hupd,
   batch_queue_refs benv bdb pids breason badmin⟩

/-- C5 witness: the amended queue-linkage theorem evaluated on a concrete
linked ticket with a failing queue insert next to a concrete batch run. -/
theorem initiator_queue_link_witness :
    (revokeHandler ⟨true, true, false, true, true, true⟩
      ⟨[⟨1, "valid", some "0xc", some "42", false, 1, none⟩], [], [],
        10, 20⟩ 1 "fraud" "admin-1").code = 200 ∧
    (revokeHandler ⟨true, true, false, true, true, true⟩
      ⟨[⟨1, "valid", some "0xc", some "42", false, 1, none⟩], [], [],
        10, 20⟩ 1 "fraud" "admin-1").db.queue =
      [] ++
        (if (true = true) ∧
            ticketLinked
              ⟨1, "valid", some "0xc", some "42", false, 1, none⟩ = true ∧
            (false = true) then
          [⟨20, 1, some 10, "pending", 0, none, none, 0⟩]
         else []) ∧
    findTicket
      (revokeHandler ⟨true, true, false, true, true, true⟩
        ⟨[⟨1, "valid", some "0xc", some "42", false, 1, none⟩], [], [],
          10, 20⟩ 1 "fraud" "admin-1").db.tickets 1 =
      some ⟨1, "revoked", some "0xc", some "42", false, 1, none⟩ ∧
    (revokeHandler ⟨true, true, false, true, true, true⟩
      ⟨[⟨1, "valid", some "0xc", some "42", false, 1, none⟩], [], [],
        10, 20⟩ 1 "fraud" "admin-1").db.logs.take 0 = [] ∧
    ((batchRevokeHandler ⟨true, true⟩ ⟨[⟨1, 1, "valid", true, some "5"⟩],
        [], [], 10, 20⟩ [1] "bot" "admin-1").db.queue.drop 0).all
      (fun q => q.revocation_log_id == none) = true :=
  initiator_queue_link ⟨true, true, false, true, true, true⟩
    ⟨[⟨1, "valid", some "0xc", some "42", false, 1, none⟩], [], [], 10, 20⟩
    1 "fraud" "admin-1" ⟨1, "valid", some "0xc", some "42", false, 1, none⟩
    ⟨true, true⟩ ⟨[⟨1, 1, "valid", true, some "5"⟩], [], [], 10, 20⟩
    [1] "bot" "admin-1" rfl (by decide) rfl

theorem syncStep_ticket_id (e : TicketEnv) (now : Nat) (t : Ticket) :
    (syncStep e now t).1.ticket_id = t.ticket_id := by
  unfold syncStep
  cases e.ledger <;> dsimp
  split
  · split <;> rfl
  · split <;> rfl

theorem syncStep_error (e : TicketEnv) (now : Nat) (t : Ticket)
    (m : String) (hl : e.ledger = .error m) :
    syncStep e now t = (t, .failed) := by
  simp [syncStep, hl]

theorem syncStep_fst_of_not_dbOk (e : TicketEnv) (now : Nat) (t : Ticket)
    (hdb : e.dbOk = false) : (syncStep e now t).1 = t := by
  unfold syncStep
  cases e.ledger <;> dsimp
  split <;> simp [hdb]

theorem syncStep_not_updated_of_not_dbOk (e : TicketEnv) (now : Nat)
    (t : Ticket) (hdb : e.dbOk = false) :
    (syncStep e now t).2 ≠ .updated := by
  unfold syncStep
  cases e.ledger <;> dsimp
  · simp
  · split <;> simp [hdb]

theorem syncStep_writes_sync (e : TicketEnv) (now : Nat) (t : Ticket)
    (bs : Nat) (hl : e.ledger = .ok bs) (hdb : e.dbOk = true) :
    (syncStep e now t).1.last_blockchain_sync = some now := by
  unfold syncStep
  rw [hl]
  dsimp
  split <;> simp [hdb]

theorem syncLoop_snd (env : Nat → TicketEnv) (now : Nat) :
    ∀ (sel d : List Ticket) (n : Nat),
      (syncLoop env now sel (d, n)).2 = n + countUpdated env now sel
  | [], d, n => by simp [syncLoop, countUpdated]
  | t :: rest, d, n => by
    simp only [syncLoop]
    rw [syncLoop_snd env now rest _ _]
    simp only [countUpdated, List.countP_cons]
    by_cases h : (syncStep (env t.ticket_id) now t).2 = .updated
    · simp [h]
      omega
    · simp [h]

theorem syncLoop_fst (env : Nat → TicketEnv) (now : Nat) :
    ∀ (sel d : List Ticket) (n : Nat),
      (syncLoop env now sel (d, n)).1 = applyUpdates env now sel d
  | [], _, _ => rfl
  | t :: rest, d, n => by
    simp only [syncLoop, applyUpdates, List.foldl_cons]
    exact syncLoop_fst env now rest _ _

theorem updateTicketRow_not_mem (d : List Ticket) (i : Nat) (v : Ticket)
    (h : i ∉ d.map (fun t => t.ticket_id)) : updateTicketRow d i v = d := by
  induction d with
  | nil => rfl
  | cons a as ih =>
    simp only [List.map_cons, List.mem_cons, not_or] at h
    obtain ⟨h1, h2⟩ := h
    simp only [updateTicketRow, List.map_cons]
    rw [if_neg (fun he => h1 he.symm)]
    have := ih h2
    simp only [updateTicketRow] at this
    rw [this]

theorem applyUpdates_cons_skip (env : Nat → TicketEnv) (now : Nat) :
    ∀ (sel : List Ticket) (x : Ticket) (d : List Ticket),
      (∀ s ∈ sel, s.ticket_id ≠ x.ticket_id) →
      applyUpdates env now sel (x :: d) = x :: applyUpdates env now sel d
  | [], _, _, _ => rfl
  | s :: rest, x, d, h => by
    simp only [applyUpdates, List.foldl_cons]
    have hx : updateTicketRow (x :: d) s.ticket_id
        (syncStep (env s.ticket_id) now s).1 =
        x :: updateTicketRow d s.ticket_id
          (syncStep (env s.ticket_id) now s).1 := by
      simp only [updateTicketRow, List.map_cons]
      rw [if_neg (fun he => h s (by simp) he.symm)]
    rw [hx]
    exact applyUpdates_cons_skip env now rest x _
      (fun s2 hs2 => h s2 (by simp [hs2]))

theorem applyUpdates_filter (env : Nat → TicketEnv) (now : Nat)
    (p : Ticket → Bool) :
    ∀ (d : List Ticket), (d.map (fun t => t.ticket_id)).Nodup →
      applyUpdates env now (d.filter p) d =
        d.map
          (fun t =>
            if p t = true then (syncStep (env t.ticket_id) now t).1 else t)
  | [], _ => rfl
  | a :: d, hnd => by
    simp only [List.map_cons, List.nodup_cons] at hnd
    obtain ⟨ha, hd⟩ := hnd
    by_cases hp : p a = true
    · rw [List.filter_cons_of_pos hp]
      simp only [applyUpdates, List.foldl_cons]
      have h1 : updateTicketRow (a :: d) a.ticket_id
          (syncStep (env a.ticket_id) now a).1 =
          (syncStep (env a.ticket_id) now a).1 :: d := by
        simp only [updateTicketRow, List.map_cons, if_true]
        have h0 := updateTicketRow_not_mem d a.ticket_id
          (syncStep (env a.ticket_id) now a).1 ha
        simp only [updateTicketRow] at h0
        rw [h0]
      rw [h1]
      have hskip : ∀ s ∈ d.filter p,
          s.ticket_id ≠ (syncStep (env a.ticket_id) now a).1.ticket_id := by
        intro s hs
        rw [syncStep_ticket_id]
        intro he
        exact ha (by
          rw [← he]
          exact List.mem_map_of_mem _ (List.mem_of_mem_filter hs))
      have h2 := applyUpdates_cons_skip env now (d.filter p)
        (syncStep (env a.ticket_id) now a).1 d hskip
      simp only [applyUpdates] at h2
      rw [h2]
      have ih := applyUpdates_filter env now p d hd
      simp only [applyUpdates] at ih
      rw [ih, List.map_cons, if_pos hp]
    · rw [List.filter_cons_of_neg (by simpa using hp)]
      have hskip : ∀ s ∈ d.filter p, s.ticket_id ≠ a.ticket_id := by
        intro s hs he
        exact ha (by
          rw [← he]
          exact List.mem_map_of_mem _ (List.mem_of_mem_filter hs))
      rw [applyUpdates_cons_skip env now (d.filter p) a d hskip,
          applyUpdates_filter env now p d hd]
      rw [List.map_cons, if_neg hp]

/-- C9 counterexample: two never-synced discrepant tickets with a batch
limit of 1 and unchanged ledger answers — the first run fixes only one of
them, so the immediately following second run still reports one
discrepancy instead of zero. -/
theorem reconciler_second_run_counterexample :
    let a : Ticket := ⟨1, some "1", "valid", true, "minted", none, none⟩
    let b : Ticket := ⟨2, some "2", "valid", true, "minted", none, none⟩
    let env : Nat → TicketEnv := fun _ => ⟨.ok 2, true⟩
    let r1 := runSync env 1 0 false [a, b]
    let r2 := runSync env 1 1 false r1.1
    r2.2 = 1 ∧ r2.2 ≠ 0 := by
  decide

/-- C9 amended: when every ledger-linked ticket is due for sync at the
first run, the tickets due number at most the batch limit, ticket ids are
unique, the second run happens within one hour of the first, and the
per-ticket ledger answers and database-write outcomes are an unchanged
function of the ticket, the second reconciler run reports zero
discrepancies; the batch-limit bound is necessary, as the counterexample
shows. -/
theorem reconciler_idempotent (env : Nat → TicketEnv) (db : List Ticket)
    (limit t1 t2 : Nat)
    (hids : (db.map (fun t => t.ticket_id)).Nodup)
    (hdue : ∀ t ∈ db, t.nft_token_id.isSome = true → staleAt t1 t = true)
    (hlim : (db.filter (syncSelectPred t1 false)).length ≤ limit)
    (ht : t2 ≤ t1 + HOUR_MS) :
    (runSync env limit t2 false (runSync env limit t1 false db).1).2 =
      0 := by
  have hsel1 : selectForSync limit t1 false db =
      db.filter (syncSelectPred t1 false) := by
    simp only [selectForSync]
    exact List.take_of_length_le hlim
  have hdb1 : (runSync env limit t1 false db).1 =
      db.map
        (fun t =>
          if syncSelectPred t1 false t = true then
            (syncStep (env t.ticket_id) t1 t).1
          else t) := by
    rw [runSync, hsel1, syncLoop_fst]
    exact applyUpdates_filter env t1 (syncSelectPred t1 false) db hids
  rw [hdb1, runSync, syncLoop_snd]
  simp only [Nat.zero_add, countUpdated]
  refine List.countP_eq_zero.mpr ?_
  intro u hu
  simp only [decide_eq_true_eq]
  simp only [selectForSync] at hu
  have hu1 := List.mem_of_mem_take hu
  obtain ⟨humem, hupred⟩ := List.mem_filter.mp hu1
  rcases List.mem_map.mp humem with ⟨t, htdb, hft⟩
  by_cases hp : syncSelectPred t1 false t = true
  · rw [if_pos hp] at hft
    cases hdbOk : (env t.ticket_id).dbOk
    · have hu_t : u = t := by
        rw [← hft]
        exact syncStep_fst_of_not_dbOk _ _ _ hdbOk
      rw [hu_t]
      exact syncStep_not_updated_of_not_dbOk _ _ _ hdbOk
    · cases hled : (env t.ticket_id).ledger with
      | error m =>
        have hstep := syncStep_error (env t.ticket_id) t1 t m hled
        have hu_t : u = t := by rw [← hft, hstep]
        rw [hu_t]
        have hstep2 := syncStep_error (env t.ticket_id) t2 t m hled
        rw [hstep2]
        simp
      | ok bs =>
        exfalso
        have hsync : u.last_blockchain_sync = some t1 := by
          rw [← hft]
          exact syncStep_writes_sync _ _ _ _ hled hdbOk
        have hstale : staleAt t2 u = false := by
          simp only [staleAt, hsync]
          simpa using ht
        rw [syncSelectPred, hstale] at hupred
        simp at hupred
  · rw [if_neg hp] at hft
    exfalso
    subst hft
    have htok : t.nft_token_id.isSome = true := by
      simp only [syncSelectPred, Bool.and_eq_true] at hupred
      exact hupred.1
    have hstale1 := hdue t htdb htok
    exact hp (by simp [syncSelectPred, htok, hstale1])

/-- C9 witness: the amended idempotence theorem evaluated on a concrete
two-ticket database whose due tickets fit the batch limit. -/
theorem reconciler_idempotent_witness :
    (runSync (fun _ => ⟨.ok 2, true⟩) 5 1 false
      (runSync (fun _ => ⟨.ok 2, true⟩) 5 0 false
        [⟨1, some "1", "valid", true, "minted", none, none⟩,
         ⟨2, some "2", "valid", true, "minted", none, none⟩]).1).2 = 0 :=
  reconciler_idempotent (fun _ => ⟨.ok 2, true⟩)
    [⟨1, some "1", "valid", true, "minted", none, none⟩,
     ⟨2, some "2", "valid", true, "minted", none, none⟩]
    5 0 1 (by decide) (by decide) (by decide) (by decide)

end TicketingDb
